import Mathlib

/-!
Verification of the apiki direct API client (`apiki/client.py`) and its CLI
glue (`apiki/cli.py`) against the repository's natural-language specification.

The shallow embedding models decoded JSON values as an inductive `Json`,
Python dictionaries as association lists with Python's insert-or-update
semantics, and the external HTTP transport (`requests`) as an explicit
outcome parameter: a verb call receives either a raised transport exception
(modelled as its stringified message) or an `HttpResponse` record.  Body
decoding (`response.json()` / `json.loads`) is an external library call and
is passed in as a decoding function `String → Option Json`.
-/

namespace Apiki

/-- A decoded JSON value, as produced by Python's `json.loads` /
`response.json()`.  Object fields are kept in insertion order, and keys are
unique (as they are in a Python dict). -/
inductive Json where
  | null
  | bool (b : Bool)
  | num (n : Int)
  | str (s : String)
  | arr (elems : List Json)
  | obj (fields : List (String × Json))

/-- A decoded top-level JSON object: the representation of a Python dict
whose keys are strings, in insertion order. -/
abbrev Dict := List (String × Json)

/-- Python dict lookup `d[k]` / `d.get(k)` on an association list.
Keys built by `dinsert` are unique, so first-match lookup agrees with the
Python dict. -/
def plookup {α : Type} : List (String × α) → String → Option α
  | [], _ => none
  | (k, v) :: rest, key => if k = key then some v else plookup rest key

/-- Python dict assignment `d[k] = v`: replaces the value in place if the key
is present (keeping its position), otherwise appends the new binding. -/
def dinsert {α : Type} : List (String × α) → String → α → List (String × α)
  | [], k, v => [(k, v)]
  | (k', v') :: rest, k, v =>
      if k' = k then (k', v) :: rest else (k', v') :: dinsert rest k v

/-- The key list of an association list (Python `d.keys()`). -/
def keys {α : Type} (d : List (String × α)) : List String := d.map Prod.fst

/-- Python `dict.update`: successive assignment of every binding of `upd`. -/
def dictUpdate {α : Type} (d upd : List (String × α)) : List (String × α) :=
  upd.foldl (fun acc kv => dinsert acc kv.1 kv.2) d

/-- Python truthiness of a decoded JSON value (`if x:`). -/
def truthy : Json → Bool
  | .null => false
  | .bool b => b
  | .num n => n != 0
  | .str s => !s.isEmpty
  | .arr elems => !elems.isEmpty
  | .obj fields => !fields.isEmpty

/-- Python `str.startswith(p)`. -/
def pyStartsWith (s p : String) : Bool := p.data.isPrefixOf s.data

/-- Python `str.endswith(p)`. -/
def pyEndsWith (s p : String) : Bool := p.data.isSuffixOf s.data

/-- Python slicing `s[:-1]`: the string without its last character. -/
def pyDropLast (s : String) : String := ⟨s.data.dropLast⟩

/-- Python substring membership `needle in hay` for strings. -/
def pyContainsSub (hay needle : String) : Bool := decide (needle.data <:+: hay.data)

/-- ASCII upper-casing of one character, as Python `str.upper` does on the
ASCII range relevant to HTTP method names. -/
def pyCharUpper (c : Char) : Char :=
  if 97 ≤ c.toNat && c.toNat ≤ 122 then Char.ofNat (c.toNat - 32) else c

/-- ASCII lower-casing of one character (Python `str.lower`). -/
def pyCharLower (c : Char) : Char :=
  if 65 ≤ c.toNat && c.toNat ≤ 90 then Char.ofNat (c.toNat + 32) else c

/-- Python `str.upper()`. -/
def pyToUpper (s : String) : String := ⟨s.data.map pyCharUpper⟩

/-- Python `str.lower()`. -/
def pyToLower (s : String) : String := ⟨s.data.map pyCharLower⟩

/-- Python list membership `s in elems` where `s` is a string and `elems`
holds decoded JSON values: only a string element equal to `s` compares
equal under Python `==`. -/
def listContainsStr (elems : List Json) (s : String) : Bool :=
  elems.any fun j => match j with | .str t => t == s | _ => false

/-- `APIClientConfig` (client.py lines 17-38): configuration value object
with the defaults declared there. -/
structure APIClientConfig where
  openapi_url : String := "http://localhost:7272/openapi.json"
  api_base_url : String := "http://localhost:7272"
  headers : List (String × String) := []
  timeout : Nat := 30
  verify_ssl : Bool := true
  verbose : Bool := true

/-- Operation metadata extracted per endpoint method
(client.py lines 138-144). -/
structure Operation where
  summary : Json
  description : Json
  parameters : Json
  requestBody : Json
  responses : Json

/-- The endpoint index: path → (uppercased method → operation metadata). -/
abbrev Endpoints := List (String × List (String × Operation))

/-- `data` attached to an `APIResponse`: either the JSON-decoded body or the
raw text fallback when decoding failed (client.py lines 214-217). -/
inductive PyData where
  | json (j : Json)
  | text (s : String)

/-- A received HTTP response, as exposed by the transport library:
status code, raw body (`content`, empty string for an empty body, with
`text` its decoded rendering), and headers. -/
structure HttpResponse where
  status_code : Nat
  content : String
  headers : List (String × String)

/-- The `request_info` diagnostic record built by each verb method. -/
structure RequestInfo where
  method : String
  url : String
  params : Option Json
  data : Option Json := none

/-- `APIResponse` (client.py lines 41-58) with its field defaults. -/
structure APIResponse where
  status_code : Nat
  success : Bool
  data : Option PyData := none
  error : Option String := none
  headers : List (String × String) := []
  request_info : RequestInfo

/-- Keyword arguments handed to the transport call
(client.py lines 185-199): `params` / `json` keys are present only when
assigned. -/
structure RequestKwargs where
  timeout : Nat
  verify : Bool
  headers : List (String × String)
  params : Option Json := none
  json : Option Json := none

/-- A Python exception escaping a modelled operation: `ValueError` with its
message, or an `AttributeError` from treating a non-dict as a dict. -/
inductive PyErr where
  | valueError (msg : String)
  | attributeError

/-- Outcome of the single construction-time GET of the spec URL: either a
raised transport exception, or a response with its status and the result of
`response.json()` (`Except.error` = decoding raised, carrying the message). -/
inductive FetchOutcome where
  | transportError (msg : String)
  | response (status : Nat) (body : Except String Json)

/-- Message of the `requests.HTTPError` raised by `raise_for_status` for a
4xx/5xx status (content abbreviated; only its presence matters here). -/
def httpErrorMessage (status : Nat) : String :=
  toString status ++ " Error for url"

/-- `APIClient._fetch_openapi_spec` (client.py lines 86-112): issue the GET,
call `raise_for_status` (which raises exactly for 400 ≤ status < 600), then
decode the body; any exception is re-raised as
`ValueError("Failed to fetch OpenAPI spec: " + str(e))`. -/
def fetch_openapi_spec (outcome : FetchOutcome) : Except PyErr Json :=
  match outcome with
  | .transportError e =>
      .error (.valueError ("Failed to fetch OpenAPI spec: " ++ e))
  | .response status body =>
      if 400 ≤ status && status < 600 then
        .error (.valueError
          ("Failed to fetch OpenAPI spec: " ++ httpErrorMessage status))
      else
        match body with
        | .error e =>
            .error (.valueError ("Failed to fetch OpenAPI spec: " ++ e))
        | .ok spec => .ok spec

/-- The five HTTP methods kept by `_parse_endpoints`
(client.py lines 129-135). -/
def supported_method (m : String) : Bool :=
  m == "get" || m == "post" || m == "put" || m == "delete" || m == "patch"

/-- Extraction of one operation object (client.py lines 138-144):
`details.get(..., default)` on a dict; a non-dict `details` raises
`AttributeError` in the source, modelled as `none`. -/
def parse_operation (details : Json) : Option Operation :=
  match details with
  | .obj kvs => some
      { summary := (plookup kvs "summary").getD (.str "")
        description := (plookup kvs "description").getD (.str "")
        parameters := (plookup kvs "parameters").getD (.arr [])
        requestBody := (plookup kvs "requestBody").getD (.obj [])
        responses := (plookup kvs "responses").getD (.obj []) }
  | _ => none

/-- The inner loop of `_parse_endpoints` (client.py lines 128-144) over the
method entries of one path, accumulating Python dict assignments. -/
def parse_methods : List (String × Operation) → List (String × Json) →
    Option (List (String × Operation))
  | acc, [] => some acc
  | acc, (m, details) :: rest =>
      if supported_method (pyToLower m) then
        match parse_operation details with
        | some op => parse_methods (dinsert acc (pyToUpper m) op) rest
        | none => none
      else parse_methods acc rest

/-- The outer loop of `_parse_endpoints` (client.py lines 126-144): each path
gets a fresh inner dict; a non-dict methods value raises (`none`). -/
def parse_endpoints_aux : Endpoints → List (String × Json) → Option Endpoints
  | acc, [] => some acc
  | acc, (path, methods) :: rest =>
      match methods with
      | .obj mkvs =>
          match parse_methods [] mkvs with
          | some ms => parse_endpoints_aux (dinsert acc path ms) rest
          | none => none
      | _ => none

/-- `APIClient._parse_endpoints` (client.py lines 114-146) on a decoded
top-level object: absent `paths` key yields the empty index; a non-dict
`paths` value raises (`none`). -/
def parse_endpoints (spec_dict : Dict) : Option Endpoints :=
  match plookup spec_dict "paths" with
  | none => some []
  | some (.obj pkvs) => parse_endpoints_aux [] pkvs
  | some _ => none

/-- `_parse_endpoints` on an arbitrary decoded spec document: the
`"paths" not in self.spec_dict` membership test also runs on non-dict
values (list membership / substring test), after which indexing a non-dict
with the string key raises. -/
def parse_endpoints_top (spec : Json) : Option Endpoints :=
  match spec with
  | .obj kvs => parse_endpoints kvs
  | .arr elems => if listContainsStr elems "paths" then none else some []
  | .str s => if pyContainsSub s "paths" then none else some []
  | _ => none

/-- The server-selection part of `APIClient._get_base_url`
(client.py lines 155-158): the configured base unless `servers` is present,
truthy, and its first element has a `url` key.  `none` models the cases the
source raises on: indexing a truthy non-sequence with `[0]`, a `url` key
whose value is not a string (the later `endswith` raises), or a string /
list first element that passes the `in` test (string indexing with a string
key raises). -/
def raw_base_url (spec_dict : Dict) (config_base : String) : Option String :=
  match plookup spec_dict "servers" with
  | none => some config_base
  | some servers =>
      if truthy servers then
        match servers with
        | .arr (first :: _) =>
            match first with
            | .obj kvs =>
                match plookup kvs "url" with
                | some (.str u) => some u
                | some _ => none
                | none => some config_base
            | .str s => if pyContainsSub s "url" then none else some config_base
            | .arr elems =>
                if listContainsStr elems "url" then none else some config_base
            | _ => none
        | .str _ => some config_base
        | _ => none
      else some config_base

/-- The normalization part of `APIClient._get_base_url`
(client.py lines 160-168): drop one trailing `/` if present, then prepend
`https://` when the value starts with neither `http://` nor `https://`. -/
def normalize_base (base_url : String) : String :=
  let b := if pyEndsWith base_url "/" then pyDropLast base_url else base_url
  if pyStartsWith b "http://" || pyStartsWith b "https://" then b
  else "https://" ++ b

/-- `APIClient._get_base_url` (client.py lines 148-168). -/
def get_base_url (spec_dict : Dict) (config_base : String) : Option String :=
  (raw_base_url spec_dict config_base).map normalize_base

/-- `APIClient._prepare_request_kwargs` (client.py lines 170-199): the
`params` / `json` keys are assigned only when the argument is truthy
(so `None` and the empty dict are both skipped). -/
def prepare_request_kwargs (config : APIClientConfig)
    (params data : Option Json) : RequestKwargs :=
  let base : RequestKwargs :=
    { timeout := config.timeout
      verify := config.verify_ssl
      headers := dictUpdate [("Content-Type", "application/json")] config.headers }
  let k1 := match params with
    | some p => if truthy p then { base with params := some p } else base
    | none => base
  match data with
  | some d => if truthy d then { k1 with json := some d } else k1
  | none => k1

/-- Python `", ".join`. -/
def joinComma : List String → String
  | [] => ""
  | [s] => s
  | s :: rest => s ++ ", " ++ joinComma rest

/-- Python `repr` of a decoded JSON value, as used by `str` on containers
(string escaping is modelled for strings without quote characters, which is
all the claims exercise). -/
def pyRepr : Json → String
  | .null => "None"
  | .bool true => "True"
  | .bool false => "False"
  | .num n => toString n
  | .str s => "\x27" ++ s ++ "\x27"
  | .arr elems =>
      "[" ++ joinComma (elems.attach.map fun x => pyRepr x.1) ++ "]"
  | .obj fields =>
      "\x7b" ++
        joinComma (fields.attach.map fun x =>
          "\x27" ++ x.1.1 ++ "\x27: " ++ pyRepr x.1.2) ++ "\x7d"
decreasing_by
  · have := List.sizeOf_lt_of_mem x.2
    simp only [Json.arr.sizeOf_spec]
    omega
  · have := List.sizeOf_lt_of_mem x.2
    have h2 : sizeOf x.1.2 < sizeOf x.1 := by
      obtain ⟨⟨k, v⟩, hx⟩ := x
      simp
    simp only [Json.obj.sizeOf_spec]
    omega

/-- Python `str` of a decoded JSON value: a top-level string prints itself,
everything else prints as its `repr`. -/
def pyStr : Json → String
  | .str s => s
  | j => pyRepr j

/-- Python `str(data)` where `data` is the `data` field computed by
`_process_response`: either `None`, the decoded value, or the raw text. -/
def pyStrData : Option PyData → String
  | none => "None"
  | some (.json j) => pyStr j
  | some (.text s) => s

/-- `APIClient._process_response` (client.py lines 201-228): decode the body
when non-empty, falling back to the raw text when `response.json()` raises;
`success` is `status_code < 400`; `error` is `str(data)` exactly when the
status is an error status. -/
def process_response (decode : String → Option Json) (response : HttpResponse)
    (request_info : RequestInfo) : APIResponse :=
  let data : Option PyData :=
    if response.content = "" then none
    else match decode response.content with
      | some j => some (.json j)
      | none => some (.text response.content)
  { status_code := response.status_code
    success := decide (response.status_code < 400)
    data := data
    error := if response.status_code < 400 then none else some (pyStrData data)
    headers := response.headers
    request_info := request_info }

/-- `APIClient.get` (client.py lines 230-267).  `outcome` is what the guarded
block produces: the response returned by `requests.get`, or the stringified
exception it raised.  The result is `none` exactly when `_get_base_url`
raises (which happens outside the `try`). -/
def get (config : APIClientConfig) (spec_dict : Dict)
    (decode : String → Option Json) (path : String) (params : Option Json)
    (outcome : Except String HttpResponse) : Option APIResponse :=
  (get_base_url spec_dict config.api_base_url).map fun base_url =>
    let path := if pyStartsWith path "/" then path else "/" ++ path
    let url := base_url ++ path
    let request_info : RequestInfo := { method := "GET", url := url, params := params }
    match outcome with
    | .ok response => process_response decode response request_info
    | .error e =>
        { status_code := 500, success := false, error := some e
          request_info := request_info }

/-- `APIClient.post` (client.py lines 269-315). -/
def post (config : APIClientConfig) (spec_dict : Dict)
    (decode : String → Option Json) (path : String) (data params : Option Json)
    (outcome : Except String HttpResponse) : Option APIResponse :=
  (get_base_url spec_dict config.api_base_url).map fun base_url =>
    let path := if pyStartsWith path "/" then path else "/" ++ path
    let url := base_url ++ path
    let request_info : RequestInfo :=
      { method := "POST", url := url, params := params, data := data }
    match outcome with
    | .ok response => process_response decode response request_info
    | .error e =>
        { status_code := 500, success := false, error := some e
          request_info := request_info }

/-- `APIClient.put` (client.py lines 317-363). -/
def put (config : APIClientConfig) (spec_dict : Dict)
    (decode : String → Option Json) (path : String) (data params : Option Json)
    (outcome : Except String HttpResponse) : Option APIResponse :=
  (get_base_url spec_dict config.api_base_url).map fun base_url =>
    let path := if pyStartsWith path "/" then path else "/" ++ path
    let url := base_url ++ path
    let request_info : RequestInfo :=
      { method := "PUT", url := url, params := params, data := data }
    match outcome with
    | .ok response => process_response decode response request_info
    | .error e =>
        { status_code := 500, success := false, error := some e
          request_info := request_info }

/-- `APIClient.delete` (client.py lines 365-402). -/
def delete (config : APIClientConfig) (spec_dict : Dict)
    (decode : String → Option Json) (path : String) (params : Option Json)
    (outcome : Except String HttpResponse) : Option APIResponse :=
  (get_base_url spec_dict config.api_base_url).map fun base_url =>
    let path := if pyStartsWith path "/" then path else "/" ++ path
    let url := base_url ++ path
    let request_info : RequestInfo := { method := "DELETE", url := url, params := params }
    match outcome with
    | .ok response => process_response decode response request_info
    | .error e =>
        { status_code := 500, success := false, error := some e
          request_info := request_info }

/-- `APIClient.patch` (client.py lines 404-450). -/
def patch (config : APIClientConfig) (spec_dict : Dict)
    (decode : String → Option Json) (path : String) (data params : Option Json)
    (outcome : Except String HttpResponse) : Option APIResponse :=
  (get_base_url spec_dict config.api_base_url).map fun base_url =>
    let path := if pyStartsWith path "/" then path else "/" ++ path
    let url := base_url ++ path
    let request_info : RequestInfo :=
      { method := "PATCH", url := url, params := params, data := data }
    match outcome with
    | .ok response => process_response decode response request_info
    | .error e =>
        { status_code := 500, success := false, error := some e
          request_info := request_info }

/-- The client state after a successful `APIClient.__init__`
(client.py lines 64-74). -/
structure APIClient where
  config : APIClientConfig
  spec_dict : Json
  endpoints : Endpoints

/-- `APIClient.__init__` (client.py lines 64-74): fetch the spec (its
`ValueError` propagates), then parse the endpoints (a malformed document
raises `AttributeError`). -/
def mkClient (config : APIClientConfig) (outcome : FetchOutcome) :
    Except PyErr APIClient :=
  match fetch_openapi_spec outcome with
  | .error e => .error e
  | .ok spec =>
      match parse_endpoints_top spec with
      | some eps => .ok { config := config, spec_dict := spec, endpoints := eps }
      | none => .error .attributeError

/-- `APIClient.get_available_endpoints` (client.py lines 452-459). -/
def get_available_endpoints (client : APIClient) : Endpoints :=
  client.endpoints

/-- Message of the `ValueError` raised for an unknown path
(client.py line 478). -/
def path_not_found_msg (path : String) : String :=
  "Path \x27" ++ path ++ "\x27 not found in API specification"

/-- Message of the `ValueError` raised for an unknown method on a known path
(client.py lines 481-484). -/
def method_not_found_msg (method path : String) : String :=
  "Method \x27" ++ method ++ "\x27 not found for path \x27" ++ path ++
    "\x27 in API specification"

/-- `APIClient.get_endpoint_details` (client.py lines 461-487):
upper-case the method, then look the path and method up exactly. -/
def get_endpoint_details (endpoints : Endpoints) (path method : String) :
    Except String Operation :=
  let method := pyToUpper method
  match plookup endpoints path with
  | none => .error (path_not_found_msg path)
  | some methods =>
      match plookup methods method with
      | none => .error (method_not_found_msg method path)
      | some details => .ok details

/-- `parse_json_arg` (cli.py lines 134-151): `None` and the empty string are
passed through as `None`; otherwise the argument is decoded, and a decoding
failure prints and calls `sys.exit(1)` (modelled as `Except.error ()`). -/
def parse_json_arg (decode : String → Option Json) (arg : Option String) :
    Except Unit (Option Json) :=
  match arg with
  | none => .ok none
  | some s =>
      if s = "" then .ok none
      else match decode s with
        | some j => .ok (some j)
        | none => .error ()

/-- Observable outcome of one `run_client_mode` invocation after the client
was constructed: the process exit code, whether the verb HTTP request was
issued, and the `APIResponse` printed by `format_response` (if any). -/
structure CliRun where
  exit_code : Nat
  request_attempted : Bool
  printed : Option APIResponse

/-- `run_client_mode` (cli.py lines 205-243) after client construction:
the `endpoints` subcommand prints the index; otherwise `--params` then
`--data` are decoded (each failure exits with status 1 before the request);
then the verb method is dispatched on and its result printed, finishing with
exit status 0.  `none` models `_get_base_url` raising. -/
def run_client_mode (config : APIClientConfig) (spec_dict : Dict)
    (decode : String → Option Json) (method path : String)
    (paramsArg dataArg : Option String)
    (outcome : Except String HttpResponse) : Option CliRun :=
  if method = "endpoints" then
    some { exit_code := 0, request_attempted := false, printed := none }
  else
    match parse_json_arg decode paramsArg with
    | .error _ =>
        some { exit_code := 1, request_attempted := false, printed := none }
    | .ok params =>
        match parse_json_arg decode dataArg with
        | .error _ =>
            some { exit_code := 1, request_attempted := false, printed := none }
        | .ok data =>
            if method = "get" then
              (get config spec_dict decode path params outcome).map fun r =>
                { exit_code := 0, request_attempted := true, printed := some r }
            else if method = "post" then
              (post config spec_dict decode path data params outcome).map fun r =>
                { exit_code := 0, request_attempted := true, printed := some r }
            else if method = "put" then
              (put config spec_dict decode path data params outcome).map fun r =>
                { exit_code := 0, request_attempted := true, printed := some r }
            else if method = "delete" then
              (delete config spec_dict decode path params outcome).map fun r =>
                { exit_code := 0, request_attempted := true, printed := some r }
            else if method = "patch" then
              (patch config spec_dict decode path data params outcome).map fun r =>
                { exit_code := 0, request_attempted := true, printed := some r }
            else
              some { exit_code := 1, request_attempted := false, printed := none }

/-- Whether a decoded JSON value is an object (a Python dict). -/
def Json.isObj : Json → Bool
  | .obj _ => true
  | _ => false

/-- Well-formedness of one method entry of a path: a supported method's
operation object must be a dict, or `_parse_endpoints` raises in the
source.  (Unsupported methods are skipped before their value is touched.) -/
def wf_method_entry (kv : String × Json) : Bool :=
  !supported_method (pyToLower kv.1) || kv.2.isObj

/-- Well-formedness of the methods dict of one path. -/
def wf_methods (mkvs : List (String × Json)) : Bool := mkvs.all wf_method_entry

/-- Well-formedness of one path entry: its value must be a dict of
well-formed method entries, or `_parse_endpoints` raises in the source. -/
def wf_path_entry (kv : String × Json) : Bool :=
  match kv.2 with
  | .obj mkvs => wf_methods mkvs
  | _ => false

/-- Well-formedness of the `paths` section of an OpenAPI document: exactly
the documents on which `_parse_endpoints` does not raise. -/
def wf_paths (pkvs : List (String × Json)) : Bool := pkvs.all wf_path_entry

/-- Well-formedness of the `servers` section: absent, or a sequence that is
empty or whose first element is an object with a string-valued (or absent)
`url` field — exactly the shapes on which `_get_base_url` cannot raise. -/
def wf_servers (spec_dict : Dict) : Bool :=
  match plookup spec_dict "servers" with
  | none => true
  | some (.arr []) => true
  | some (.arr (first :: _)) =>
      match first with
      | .obj kvs =>
          match plookup kvs "url" with
          | some (.str _) => true
          | none => true
          | some _ => false
      | _ => false
  | some _ => false

/-- From the spec's words for the amended C5 sentence: the fetch outcomes
the specification says must fail — a transport error, a 4xx/5xx status, or
a body that is not valid structured data. -/
def spec_fetch_fails (outcome : FetchOutcome) : Bool :=
  match outcome with
  | .transportError _ => true
  | .response status body =>
      (400 ≤ status && status < 600) ||
        (match body with | .error _ => true | .ok _ => false)

/-- The claim of C4 as stated: any resolved base URL coming from a
configured fallback that misses a scheme ends up with the `https://` prefix
and no trailing slash. -/
def claimed_resolve_no_trailing_slash : Prop :=
  ∀ (spec_dict : Dict) (cfg r : String),
    get_base_url spec_dict cfg = some r →
    pyStartsWith cfg "http://" = false → pyStartsWith cfg "https://" = false →
    pyStartsWith r "https://" = true ∧ pyEndsWith r "/" = false

/-- The claim of C5 as stated: the construction-time fetch raises iff the
request errors, the status is not 2xx, or the body fails to decode. -/
def claimed_fetch_error_iff_non2xx : Prop :=
  ∀ (status : Nat) (body : Except String Json),
    (∃ msg, fetch_openapi_spec (.response status body) =
      .error (.valueError msg)) ↔
    (¬ (200 ≤ status ∧ status < 300) ∨ ∃ e, body = .error e)

/-- The claim of C7 as stated: any malformed `--params` JSON argument (one
the decoder rejects) makes the CLI exit non-zero before issuing the verb
request. -/
def claimed_malformed_json_exits : Prop :=
  ∀ (config : APIClientConfig) (spec_dict : Dict)
    (decode : String → Option Json) (method path s : String)
    (dataArg : Option String) (outcome : Except String HttpResponse)
    (res : CliRun),
    (method = "get" ∨ method = "post" ∨ method = "put" ∨
      method = "delete" ∨ method = "patch") →
    decode s = none →
    run_client_mode config spec_dict decode method path (some s) dataArg
      outcome = some res →
    res.exit_code ≠ 0 ∧ res.request_attempted = false

/-- Fixture: a `paths` section with one path carrying a supported and an
unsupported method, and one path carrying only an unsupported method. -/
def paths0 : List (String × Json) :=
  [("/v3/health", .obj [("get", .obj [("summary", .str "Health check")]),
      ("trace", .null)]),
   ("/empty", .obj [("options", .obj [])])]

/-- Fixture: a decoded OpenAPI document holding `paths0`. -/
def spec0 : Dict := [("paths", .obj paths0)]

theorem keys_cons {α : Type} (kv : String × α) (d : List (String × α)) :
    keys (kv :: d) = kv.1 :: keys d := rfl

theorem mem_keys_dinsert {α : Type} (d : List (String × α)) (k M : String)
    (v : α) : M ∈ keys (dinsert d k v) ↔ M ∈ keys d ∨ M = k := by
  induction d with
  | nil => simp [dinsert, keys]
  | cons hd tl ih =>
      obtain ⟨k', v'⟩ := hd
      by_cases h : k' = k
      · subst h
        simp [dinsert, keys]
        tauto
      · simp only [dinsert, if_neg h, keys_cons, List.mem_cons, ih]
        tauto

theorem plookup_dinsert_self {α : Type} (d : List (String × α)) (k : String)
    (v : α) : plookup (dinsert d k v) k = some v := by
  induction d with
  | nil => simp [dinsert, plookup]
  | cons hd tl ih =>
      obtain ⟨k', v'⟩ := hd
      by_cases h : k' = k
      · subst h
        simp [dinsert, plookup]
      · simp [dinsert, plookup, h, ih]

theorem plookup_dinsert_ne {α : Type} (d : List (String × α)) (k k' : String)
    (v : α) (h : k' ≠ k) : plookup (dinsert d k v) k' = plookup d k' := by
  induction d with
  | nil => simp [dinsert, plookup, Ne.symm h]
  | cons hd tl ih =>
      obtain ⟨k₀, v₀⟩ := hd
      by_cases h0 : k₀ = k
      · subst h0
        simp [dinsert, plookup, Ne.symm h]
      · by_cases hk : k₀ = k'
        · simp [dinsert, plookup, h0, hk, h]
        · simp [dinsert, plookup, h0, hk, ih]

theorem plookup_eq_none_iff {α : Type} (d : List (String × α)) (k : String) :
    plookup d k = none ↔ k ∉ keys d := by
  induction d with
  | nil => simp [plookup, keys]
  | cons hd tl ih =>
      obtain ⟨k', v'⟩ := hd
      by_cases h : k' = k
      · subst h
        simp [plookup, keys]
      · simp [plookup, h, keys_cons, ih, Ne.symm h]

theorem mem_keys_of_plookup {α : Type} (d : List (String × α)) (k : String)
    (v : α) (h : plookup d k = some v) : k ∈ keys d := by
  by_contra hk
  rw [← plookup_eq_none_iff] at hk
  rw [hk] at h
  exact Option.noConfusion h

theorem char_toNat_ofNat (n : Nat) (h : n < 55296) :
    (Char.ofNat n).toNat = n := by
  have hv : n.isValidChar := Or.inl h
  rw [Char.ofNat, dif_pos hv]
  rfl

theorem pyCharUpper_idem (c : Char) :
    pyCharUpper (pyCharUpper c) = pyCharUpper c := by
  unfold pyCharUpper
  by_cases h : (97 ≤ c.toNat && c.toNat ≤ 122) = true
  · simp only [h, if_pos]
    simp only [Bool.and_eq_true, decide_eq_true_eq] at h
    have hns : (Char.ofNat (c.toNat - 32)).toNat = c.toNat - 32 :=
      char_toNat_ofNat _ (by omega)
    have : ¬ ((97 ≤ (Char.ofNat (c.toNat - 32)).toNat &&
        (Char.ofNat (c.toNat - 32)).toNat ≤ 122) = true) := by
      rw [hns]
      simp only [Bool.and_eq_true, decide_eq_true_eq]
      omega
    simp [this]
  · simp [h]

theorem pyToUpper_idem (s : String) : pyToUpper (pyToUpper s) = pyToUpper s := by
  unfold pyToUpper
  congr 1
  show List.map pyCharUpper (List.map pyCharUpper s.data) =
    List.map pyCharUpper s.data
  rw [List.map_map]
  exact List.map_congr_left fun c _ => pyCharUpper_idem c

theorem string_data_append (a b : String) : (a ++ b).data = a.data ++ b.data := by
  obtain ⟨la⟩ := a
  obtain ⟨lb⟩ := b
  rfl

theorem pyStartsWith_of_dropLast (s p : String)
    (h : pyStartsWith (pyDropLast s) p = true) : pyStartsWith s p = true := by
  unfold pyStartsWith pyDropLast at *
  rw [ List.isPrefixOf_iff_prefix] at *
  exact h.trans ( List.dropLast_prefix s.data)

theorem path_msg_ne_method_msg (p m q : String) :
    path_not_found_msg p ≠ method_not_found_msg m q := by
  intro h
  have hd := congrArg String.data h
  rw [path_not_found_msg, method_not_found_msg] at hd
  rw [string_data_append, string_data_append, string_data_append,
    string_data_append, string_data_append, string_data_append] at hd
  have h1 : ("Path \x27" : String).data = 'P' :: "ath \x27".data := rfl
  have h2 : ("Method \x27" : String).data = 'M' :: "ethod \x27".data := rfl
  rw [h1, h2] at hd
  simp only [List.cons_append, List.cons.injEq] at hd
  exact absurd hd.1 (by decide)

theorem mem_of_plookup {α : Type} (d : List (String × α)) (k : String)
    (v : α) (h : plookup d k = some v) : (k, v) ∈ d := by
  induction d with
  | nil => exact Option.noConfusion h
  | cons hd tl ih =>
      obtain ⟨k', v'⟩ := hd
      by_cases hk : k' = k
      · subst hk
        rw [plookup, if_pos rfl] at h
        obtain rfl := Option.some.inj h
        exact List.mem_cons_self _ _
      · rw [plookup, if_neg hk] at h
        exact List.mem_cons_of_mem _ (ih h)

theorem parse_methods_spec (mkvs : List (String × Json)) :
    ∀ acc : List (String × Operation), wf_methods mkvs = true →
    ∃ ms, parse_methods acc mkvs = some ms ∧
      ∀ M, M ∈ keys ms ↔ (M ∈ keys acc ∨
        ∃ m, m ∈ keys mkvs ∧ supported_method (pyToLower m) = true ∧
          pyToUpper m = M) := by
  induction mkvs with
  | nil =>
      intro acc _
      refine ⟨acc, rfl, ?_⟩
      simp [keys]
  | cons hd tl ih =>
      obtain ⟨m, d⟩ := hd
      intro acc hwf
      rw [wf_methods, List.all_cons, Bool.and_eq_true] at hwf
      obtain ⟨hhd, htl⟩ := hwf
      by_cases hs : supported_method (pyToLower m) = true
      · rw [wf_method_entry, hs] at hhd
        have hobj : d.isObj = true := by simpa using hhd
        cases d with
        | obj kvs =>
            obtain ⟨ms, hms, hiff⟩ := ih (dinsert acc (pyToUpper m)
              { summary := (plookup kvs "summary").getD (.str "")
                description := (plookup kvs "description").getD (.str "")
                parameters := (plookup kvs "parameters").getD (.arr [])
                requestBody := (plookup kvs "requestBody").getD (.obj [])
                responses := (plookup kvs "responses").getD (.obj []) }) htl
            refine ⟨ms, ?_, ?_⟩
            · simpa [parse_methods, hs, parse_operation] using hms
            · intro M
              rw [hiff, mem_keys_dinsert]
              simp only [keys_cons, List.mem_cons]
              constructor
              · rintro ((hacc | rfl) | ⟨m', hm', hsup, hup⟩)
                · exact Or.inl hacc
                · exact Or.inr ⟨m, Or.inl rfl, hs, rfl⟩
                · exact Or.inr ⟨m', Or.inr hm', hsup, hup⟩
              · rintro (hacc | ⟨m', (rfl | hm'), hsup, hup⟩)
                · exact Or.inl (Or.inl hacc)
                · exact Or.inl (Or.inr hup.symm)
                · exact Or.inr ⟨m', hm', hsup, hup⟩
        | null => exact absurd hobj (by simp [Json.isObj])
        | bool b => exact absurd hobj (by simp [Json.isObj])
        | num n => exact absurd hobj (by simp [Json.isObj])
        | str s => exact absurd hobj (by simp [Json.isObj])
        | arr elems => exact absurd hobj (by simp [Json.isObj])
      · obtain ⟨ms, hms, hiff⟩ := ih acc htl
        refine ⟨ms, ?_, ?_⟩
        · simpa [parse_methods, hs] using hms
        · intro M
          rw [hiff]
          simp only [keys_cons, List.mem_cons]
          constructor
          · rintro (hacc | ⟨m', hm', hsup, hup⟩)
            · exact Or.inl hacc
            · exact Or.inr ⟨m', Or.inr hm', hsup, hup⟩
          · rintro (hacc | ⟨m', (rfl | hm'), hsup, hup⟩)
            · exact Or.inl hacc
            · exact absurd hsup hs
            · exact Or.inr ⟨m', hm', hsup, hup⟩

theorem parse_endpoints_aux_spec (pkvs : List (String × Json)) :
    ∀ acc : Endpoints, wf_paths pkvs = true → (keys pkvs).Nodup →
    (∀ p, p ∈ keys pkvs → p ∉ keys acc) →
    ∃ eps, parse_endpoints_aux acc pkvs = some eps ∧
      (∀ p, p ∈ keys eps ↔ p ∈ keys acc ∨ p ∈ keys pkvs) ∧
      (∀ p, p ∉ keys pkvs → plookup eps p = plookup acc p) ∧
      (∀ p mkvs, plookup pkvs p = some (.obj mkvs) →
        plookup eps p = parse_methods [] mkvs) := by
  induction pkvs with
  | nil =>
      intro acc _ _ _
      refine ⟨acc, rfl, by simp [keys], fun p _ => rfl, fun p mkvs h => ?_⟩
      exact Option.noConfusion h
  | cons hd tl ih =>
      obtain ⟨path, methods⟩ := hd
      intro acc hwf hnd hdisj
      rw [wf_paths, List.all_cons, Bool.and_eq_true] at hwf
      obtain ⟨hhd, htl⟩ := hwf
      rw [keys_cons, List.nodup_cons] at hnd
      obtain ⟨hpnotin, hnd'⟩ := hnd
      cases methods with
      | obj mkvs =>
          have hwfm : wf_methods mkvs = true := by
            simpa [wf_path_entry] using hhd
          obtain ⟨ms, hms, _⟩ := parse_methods_spec mkvs [] hwfm
          have hdisj' : ∀ p, p ∈ keys tl → p ∉ keys (dinsert acc path ms) := by
            intro p hp
            rw [mem_keys_dinsert]
            push_neg
            refine ⟨hdisj p (by simp [keys_cons, hp]), ?_⟩
            intro hpp
            exact hpnotin (hpp ▸ hp)
          obtain ⟨eps, heps, hkeys, hother, hlook⟩ :=
            ih (dinsert acc path ms) htl hnd' hdisj'
          refine ⟨eps, ?_, ?_, ?_, ?_⟩
          · simpa [parse_endpoints_aux, hms] using heps
          · intro p
            rw [hkeys p, mem_keys_dinsert]
            simp only [keys_cons, List.mem_cons]
            tauto
          · intro p hp
            simp only [keys_cons, List.mem_cons] at hp
            push_neg at hp
            rw [hother p hp.2, plookup_dinsert_ne _ _ _ _ hp.1]
          · intro p mkvs' hpl
            by_cases hpp : path = p
            · subst hpp
              rw [plookup, if_pos rfl] at hpl
              obtain hm := Option.some.inj hpl
              obtain rfl : mkvs = mkvs' := by
                cases hm
                rfl
              rw [hother path hpnotin, plookup_dinsert_self, hms]
            · rw [plookup, if_neg hpp] at hpl
              exact hlook p mkvs' hpl
      | null => exact absurd hhd (by simp [wf_path_entry])
      | bool b => exact absurd hhd (by simp [wf_path_entry])
      | num n => exact absurd hhd (by simp [wf_path_entry])
      | str s => exact absurd hhd (by simp [wf_path_entry])
      | arr elems => exact absurd hhd (by simp [wf_path_entry])

/-- C1: whenever the guarded block of a verb method raises (any
transport-level failure while preparing or issuing the request), the method
returns — it never propagates the exception — an `APIResponse` with status
code 500, `success = false`, `error` the stringified exception, `data`
absent and `headers` empty; this holds for all five verb methods. -/
theorem never_throws_on_transport_failure
    (config : APIClientConfig) (spec_dict : Dict)
    (decode : String → Option Json) (path : String) (params data : Option Json)
    (e base : String)
    (h : get_base_url spec_dict config.api_base_url = some base) :
    (∃ ri, get config spec_dict decode path params (.error e) =
      some ⟨500, false, none, some e, [], ri⟩) ∧
    (∃ ri, post config spec_dict decode path data params (.error e) =
      some ⟨500, false, none, some e, [], ri⟩) ∧
    (∃ ri, put config spec_dict decode path data params (.error e) =
      some ⟨500, false, none, some e, [], ri⟩) ∧
    (∃ ri, delete config spec_dict decode path params (.error e) =
      some ⟨500, false, none, some e, [], ri⟩) ∧
    (∃ ri, patch config spec_dict decode path data params (.error e) =
      some ⟨500, false, none, some e, [], ri⟩) := by
  refine ⟨?_, ?_, ?_, ?_, ?_⟩
  · exact ⟨⟨"GET", base ++ (if pyStartsWith path "/" then path else "/" ++ path),
      params, none⟩, by unfold get; rw [h]; rfl⟩
  · exact ⟨⟨"POST", base ++ (if pyStartsWith path "/" then path else "/" ++ path),
      params, data⟩, by unfold post; rw [h]; rfl⟩
  · exact ⟨⟨"PUT", base ++ (if pyStartsWith path "/" then path else "/" ++ path),
      params, data⟩, by unfold put; rw [h]; rfl⟩
  · exact ⟨⟨"DELETE", base ++ (if pyStartsWith path "/" then path else "/" ++ path),
      params, none⟩, by unfold delete; rw [h]; rfl⟩
  · exact ⟨⟨"PATCH", base ++ (if pyStartsWith path "/" then path else "/" ++ path),
      params, data⟩, by unfold patch; rw [h]; rfl⟩

/-- Witness for C1 at a concrete configuration and exception. -/
theorem never_throws_on_transport_failure_witness :
    get_base_url [] (APIClientConfig.api_base_url {}) =
      some "http://localhost:7272" ∧
    (∃ ri, get {} [] (fun _ => none) "/v3/health" none
      (.error "connection refused") =
      some ⟨500, false, none, some "connection refused", [], ri⟩) :=
  ⟨rfl, (never_throws_on_transport_failure {} [] (fun _ => none) "/v3/health"
    none none "connection refused" "http://localhost:7272" rfl).1⟩

/-- C2: for every received HTTP response, `_process_response` yields `data`
decoded from the body (raw text if decoding fails, absent if the body is
empty), `success` true iff the status code is < 400, and `error` null on
success and otherwise the stringified rendering of the computed `data`. -/
theorem process_response_contract (decode : String → Option Json)
    (response : HttpResponse) (request_info : RequestInfo) :
    ((process_response decode response request_info).status_code =
      response.status_code) ∧
    (response.content = "" →
      (process_response decode response request_info).data = none) ∧
    (∀ j, response.content ≠ "" → decode response.content = some j →
      (process_response decode response request_info).data = some (.json j)) ∧
    (response.content ≠ "" → decode response.content = none →
      (process_response decode response request_info).data =
        some (.text response.content)) ∧
    ((process_response decode response request_info).success = true ↔
      response.status_code < 400) ∧
    (response.status_code < 400 →
      (process_response decode response request_info).error = none) ∧
    (400 ≤ response.status_code →
      (process_response decode response request_info).error =
        some (pyStrData (process_response decode response request_info).data)) := by
  unfold process_response
  refine ⟨rfl, ?_, ?_, ?_, ?_, ?_, ?_⟩
  · intro h
    simp [h]
  · intro j hne hj
    simp [hne, hj]
  · intro hne hj
    simp [hne, hj]
  · simp
  · intro h
    simp [h]
  · intro h
    have hn : ¬ response.status_code < 400 := by omega
    simp [hn]

/-- Witness for C2: the spec's 503 scenario with body decoding to
an object containing `detail`. -/
theorem process_response_contract_witness :
    ((503 : Nat) ≠ 0 ∧ 400 ≤ 503) ∧
    ((process_response
        (fun _ => some (.obj [("detail", .str "unavailable")]))
        ⟨503, "x", []⟩ ⟨"GET", "u", none, none⟩).data =
      some (.json (.obj [("detail", .str "unavailable")])) ∧
    ((process_response
        (fun _ => some (.obj [("detail", .str "unavailable")]))
        ⟨503, "x", []⟩ ⟨"GET", "u", none, none⟩).success = true ↔
      (503 : Nat) < 400) ∧
    (process_response
        (fun _ => some (.obj [("detail", .str "unavailable")]))
        ⟨503, "x", []⟩ ⟨"GET", "u", none, none⟩).error =
      some (pyStrData (process_response
        (fun _ => some (.obj [("detail", .str "unavailable")]))
        ⟨503, "x", []⟩ ⟨"GET", "u", none, none⟩).data)) :=
  ⟨⟨by decide, by decide⟩,
    (process_response_contract
      (fun _ => some (.obj [("detail", .str "unavailable")]))
      ⟨503, "x", []⟩ ⟨"GET", "u", none, none⟩).2.2.1 _ (by decide) rfl,
    (process_response_contract _ _ _).2.2.2.2.1,
    (process_response_contract _ _ _).2.2.2.2.2.2 (by decide)⟩

theorem ged_eq (endpoints : Endpoints) (path method : String) :
    get_endpoint_details endpoints path method =
      (match plookup endpoints path with
       | none => .error (path_not_found_msg path)
       | some methods =>
           match plookup methods (pyToUpper method) with
           | none => .error (method_not_found_msg (pyToUpper method) path)
           | some details => .ok details) := rfl

/-- C6: `get_endpoint_details` fails exactly when the path is absent from
the index or the upper-cased method is absent under the path, and the two
failure messages are distinguishable from each other. -/
theorem endpoint_details_not_found_causes (endpoints : Endpoints)
    (path method : String) :
    (plookup endpoints path = none →
      get_endpoint_details endpoints path method =
        .error (path_not_found_msg path)) ∧
    (∀ ms, plookup endpoints path = some ms →
      plookup ms (pyToUpper method) = none →
      get_endpoint_details endpoints path method =
        .error (method_not_found_msg (pyToUpper method) path)) ∧
    (∀ ms op, plookup endpoints path = some ms →
      plookup ms (pyToUpper method) = some op →
      get_endpoint_details endpoints path method = .ok op) ∧
    (∀ p m q, path_not_found_msg p ≠ method_not_found_msg m q) := by
  refine ⟨?_, ?_, ?_, path_msg_ne_method_msg⟩
  · intro h
    simp [get_endpoint_details, h]
  · intro ms h1 h2
    simp [get_endpoint_details, h1, h2]
  · intro ms op h1 h2
    simp [get_endpoint_details, h1, h2]

/-- Witness for C6: the spec's scenario of an unknown path and an unknown
method on a known path. -/
theorem endpoint_details_not_found_causes_witness :
    get_endpoint_details
        [("/known-path", [("GET", ⟨.null, .null, .null, .null, .null⟩)])]
        "/unknown" "GET" =
      .error (path_not_found_msg "/unknown") ∧
    get_endpoint_details
        [("/known-path", [("GET", ⟨.null, .null, .null, .null, .null⟩)])]
        "/known-path" "TRACE" =
      .error (method_not_found_msg "TRACE" "/known-path") :=
  ⟨(endpoint_details_not_found_causes
      [("/known-path", [("GET", ⟨.null, .null, .null, .null, .null⟩)])]
      "/unknown" "GET").1 rfl,
    (endpoint_details_not_found_causes
      [("/known-path", [("GET", ⟨.null, .null, .null, .null, .null⟩)])]
      "/known-path" "TRACE").2.1 _ rfl rfl⟩

/-- C10: `get_endpoint_details` is case-insensitive in its method argument
(calling it with `m` is identical to calling it with `upper(m)`), while the
path is matched exactly: the path-not-found failure occurs precisely when
the path is not literally a key of the index. -/
theorem endpoint_details_method_case_insensitive (endpoints : Endpoints)
    (path method : String) :
    (get_endpoint_details endpoints path method =
      get_endpoint_details endpoints path (pyToUpper method)) ∧
    (get_endpoint_details endpoints path method =
        .error (path_not_found_msg path) ↔ plookup endpoints path = none) := by
  constructor
  · rw [ged_eq endpoints path method,
      ged_eq endpoints path (pyToUpper method), pyToUpper_idem]
  · constructor
    · intro h
      cases hh : plookup endpoints path with
      | none => rfl
      | some ms =>
          exfalso
          rw [ged_eq] at h
          simp only [hh] at h
          cases hm : plookup ms (pyToUpper method) with
          | none =>
              simp only [hm] at h
              exact path_msg_ne_method_msg path (pyToUpper method) path
                (Except.error.inj h).symm
          | some op =>
              simp only [hm] at h
              exact Except.noConfusion h
    · intro h
      rw [ged_eq, h]

/-- C9: a fetched document without a top-level `paths` key still
constructs: the endpoint index is empty, `get_available_endpoints` returns
the empty mapping, and every details lookup fails with the path-not-found
cause. -/
theorem no_paths_key_empty_index (config : APIClientConfig)
    (spec_dict : Dict) (outcome : FetchOutcome)
    (h : plookup spec_dict "paths" = none)
    (hf : fetch_openapi_spec outcome = .ok (.obj spec_dict)) :
    parse_endpoints spec_dict = some [] ∧
    mkClient config outcome =
      .ok { config := config, spec_dict := .obj spec_dict, endpoints := [] } ∧
    (∀ c, mkClient config outcome = .ok c → get_available_endpoints c = []) ∧
    (∀ p m, get_endpoint_details [] p m = .error (path_not_found_msg p)) := by
  have hpe : parse_endpoints spec_dict = some [] := by
    rw [parse_endpoints, h]
  have hmk : mkClient config outcome =
      .ok { config := config, spec_dict := .obj spec_dict, endpoints := [] } := by
    rw [mkClient, hf]
    simp [parse_endpoints_top, hpe]
  refine ⟨hpe, hmk, ?_, ?_⟩
  · intro c hc
    rw [hmk] at hc
    obtain rfl := Except.ok.inj hc
    rfl
  · intro p m
    simp [get_endpoint_details, plookup]

/-- C3: for every well-formed OpenAPI document, the endpoint index contains
exactly the paths of `D.paths`; under each path exactly the supported
methods (upper-cased), no extras and no omissions; and a path with no
supported method is still present with an empty inner mapping. -/
theorem parse_endpoints_exact_paths_and_methods
    (spec_dict : Dict) (pkvs : List (String × Json))
    (hp : plookup spec_dict "paths" = some (.obj pkvs))
    (hwf : wf_paths pkvs = true) (hnd : (keys pkvs).Nodup) :
    ∃ eps, parse_endpoints spec_dict = some eps ∧
      (∀ p, p ∈ keys eps ↔ p ∈ keys pkvs) ∧
      (∀ p mkvs, plookup pkvs p = some (.obj mkvs) →
        ∃ ms, plookup eps p = some ms ∧
          (∀ M, M ∈ keys ms ↔ ∃ m, m ∈ keys mkvs ∧
            supported_method (pyToLower m) = true ∧ pyToUpper m = M) ∧
          ((∀ m, m ∈ keys mkvs → supported_method (pyToLower m) = false) →
            ms = [])) := by
  obtain ⟨eps, heps, hkeys, hother, hlook⟩ :=
    parse_endpoints_aux_spec pkvs [] hwf hnd (by simp [keys])
  refine ⟨eps, ?_, ?_, ?_⟩
  · rw [parse_endpoints, hp]
    exact heps
  · intro p
    rw [hkeys p]
    simp [keys]
  · intro p mkvs hpl
    have hwfm : wf_methods mkvs = true := by
      have hmem := mem_of_plookup pkvs p (.obj mkvs) hpl
      unfold wf_paths at hwf
      have := List.all_eq_true.mp hwf _ hmem
      simpa [wf_path_entry] using this
    obtain ⟨ms, hms, hiff⟩ := parse_methods_spec mkvs [] hwfm
    refine ⟨ms, ?_, ?_, ?_⟩
    · rw [hlook p mkvs hpl, hms]
    · intro M
      rw [hiff M]
      simp [keys]
    · intro hnone
      cases hms' : ms with
      | nil => rfl
      | cons hd tlms =>
          exfalso
          have hmem : hd.1 ∈ keys ms := by
            rw [hms', keys_cons]
            exact List.mem_cons_self _ _
          rw [hiff hd.1] at hmem
          rcases hmem with hacc | ⟨m', hm', hsup, _⟩
          · simp [keys] at hacc
          · have := hnone m' hm'
            rw [this] at hsup
            exact Bool.noConfusion hsup

/-- Witness for C3 on the fixture document: one path with a supported and
an unsupported method, one path with only an unsupported method. -/
theorem parse_endpoints_exact_paths_and_methods_witness :
    (plookup spec0 "paths" = some (.obj paths0) ∧ wf_paths paths0 = true ∧
      (keys paths0).Nodup) ∧
    (∃ eps, parse_endpoints spec0 = some eps ∧
      (∀ p, p ∈ keys eps ↔ p ∈ keys paths0) ∧
      (∀ p mkvs, plookup paths0 p = some (.obj mkvs) →
        ∃ ms, plookup eps p = some ms ∧
          (∀ M, M ∈ keys ms ↔ ∃ m, m ∈ keys mkvs ∧
            supported_method (pyToLower m) = true ∧ pyToUpper m = M) ∧
          ((∀ m, m ∈ keys mkvs → supported_method (pyToLower m) = false) →
            ms = []))) :=
  ⟨⟨rfl, rfl, by decide⟩,
    parse_endpoints_exact_paths_and_methods spec0 paths0 rfl rfl (by decide)⟩

theorem prepare_params_eq (config : APIClientConfig)
    (params data : Option Json) :
    (prepare_request_kwargs config params data).params =
      (match params with
       | some p => if truthy p then some p else none
       | none => none) := by
  rcases params with _ | p
  · rcases data with _ | d
    · rfl
    · by_cases hd : truthy d = true <;> simp [prepare_request_kwargs, hd]
  · rcases data with _ | d
    · by_cases hp : truthy p = true <;> simp [prepare_request_kwargs, hp]
    · by_cases hp : truthy p = true <;> by_cases hd : truthy d = true <;>
        simp [prepare_request_kwargs, hp, hd]

theorem prepare_json_eq (config : APIClientConfig)
    (params data : Option Json) :
    (prepare_request_kwargs config params data).json =
      (match data with
       | some d => if truthy d then some d else none
       | none => none) := by
  rcases params with _ | p
  · rcases data with _ | d
    · rfl
    · by_cases hd : truthy d = true <;> simp [prepare_request_kwargs, hd]
  · rcases data with _ | d
    · by_cases hp : truthy p = true <;> simp [prepare_request_kwargs, hp]
    · by_cases hp : truthy p = true <;> by_cases hd : truthy d = true <;>
        simp [prepare_request_kwargs, hp, hd]

/-- C8: an empty mapping given as body or query parameters is treated
exactly like an absent argument — the `params` / `json` keys are attached
only for a truthy (non-empty) value, so no empty object body or empty query
string can be sent. -/
theorem empty_mapping_like_absent (config : APIClientConfig)
    (params data : Option Json) :
    (prepare_request_kwargs config (some (.obj [])) data =
      prepare_request_kwargs config none data) ∧
    (prepare_request_kwargs config params (some (.obj [])) =
      prepare_request_kwargs config params none) ∧
    (∀ p, (prepare_request_kwargs config params data).params = some p →
      truthy p = true) ∧
    (∀ b, (prepare_request_kwargs config params data).json = some b →
      truthy b = true) := by
  refine ⟨?_, ?_, ?_, ?_⟩
  · simp [prepare_request_kwargs, truthy]
  · simp [prepare_request_kwargs, truthy]
  · intro p hp
    rw [prepare_params_eq] at hp
    rcases params with _ | p0
    · exact Option.noConfusion hp
    · by_cases h : truthy p0 = true
      · rw [show (match some p0 with
          | some p => if truthy p then some p else none
          | none => (none : Option Json)) =
            if truthy p0 then some p0 else none from rfl, if_pos h] at hp
        obtain rfl := Option.some.inj hp
        exact h
      · rw [show (match some p0 with
          | some p => if truthy p then some p else none
          | none => (none : Option Json)) =
            if truthy p0 then some p0 else none from rfl, if_neg h] at hp
        exact Option.noConfusion hp
  · intro b hb
    rw [prepare_json_eq] at hb
    rcases data with _ | d0
    · exact Option.noConfusion hb
    · by_cases h : truthy d0 = true
      · rw [show (match some d0 with
          | some d => if truthy d then some d else none
          | none => (none : Option Json)) =
            if truthy d0 then some d0 else none from rfl, if_pos h] at hb
        obtain rfl := Option.some.inj hb
        exact h
      · rw [show (match some d0 with
          | some d => if truthy d then some d else none
          | none => (none : Option Json)) =
            if truthy d0 then some d0 else none from rfl, if_neg h] at hb
        exact Option.noConfusion hb

/-- Witness for C8 at a concrete non-empty params mapping. -/
theorem empty_mapping_like_absent_witness :
    (prepare_request_kwargs {} (some (.obj [])) none =
      prepare_request_kwargs {} none none) ∧
    (prepare_request_kwargs {} (some (.obj [("a", .num 1)])) none).params =
      some (.obj [("a", .num 1)]) ∧
    truthy (.obj [("a", .num 1)]) = true :=
  ⟨(empty_mapping_like_absent {} none none).1, rfl,
    (empty_mapping_like_absent {} (some (.obj [("a", .num 1)])) none).2.2.1
      (.obj [("a", .num 1)]) rfl⟩

/-- Witness for C9 at a concrete document with no `paths` key. -/
theorem no_paths_key_empty_index_witness :
    parse_endpoints [("openapi", Json.str "3.0.0")] = some [] ∧
    mkClient {} (.response 200 (.ok (.obj [("openapi", Json.str "3.0.0")]))) =
      .ok { config := {}, spec_dict := .obj [("openapi", Json.str "3.0.0")]
            endpoints := [] } :=
  ⟨(no_paths_key_empty_index {} [("openapi", Json.str "3.0.0")]
      (.response 200 (.ok (.obj [("openapi", Json.str "3.0.0")]))) rfl rfl).1,
    (no_paths_key_empty_index {} [("openapi", Json.str "3.0.0")]
      (.response 200 (.ok (.obj [("openapi", Json.str "3.0.0")]))) rfl rfl).2.1⟩

theorem startsWith_strip_false (s p : String)
    (h : pyStartsWith s p = false) :
    pyStartsWith (if pyEndsWith s "/" then pyDropLast s else s) p = false := by
  by_cases he : pyEndsWith s "/" = true
  · rw [if_pos he]
    by_contra hc
    rw [Bool.not_eq_false] at hc
    rw [pyStartsWith_of_dropLast s p hc] at h
    exact Bool.noConfusion h
  · rw [if_neg he]
    exact h

/-- C4 counterexample: with no `servers` entry and the configured fallback
`"example.com//"` (scheme missing, two trailing slashes), the resolved base
URL is `"https://example.com/"`, which still ends with a slash — the claim's
"no trailing slash" consequence is false, because the source strips at most
one trailing slash. -/
theorem resolve_base_url_claim_refuted :
    get_base_url [] "example.com//" = some "https://example.com/" ∧
    ¬ claimed_resolve_no_trailing_slash := by
  refine ⟨rfl, ?_⟩
  intro h
  have := h [] "example.com//" "https://example.com/" rfl (by decide) (by decide)
  exact absurd this.2 (by decide)

/-- C4 (amended): `_get_base_url` picks the first server's string `url`
field when present and otherwise the configured fallback; the chosen value
then has at most one trailing `/` stripped and gets `https://` prepended
when it lacks a scheme prefix; consequently a scheme-less input resolves to
`https://` prepended to its once-stripped form, and a schemed input without
trailing slash is returned unchanged. -/
theorem resolve_base_url_normalization :
    (∀ (spec_dict : Dict) (cfg u : String) (kvs : List (String × Json))
      (rest : List Json),
      plookup spec_dict "servers" = some (.arr (.obj kvs :: rest)) →
      plookup kvs "url" = some (.str u) →
      get_base_url spec_dict cfg = some (normalize_base u)) ∧
    (∀ (spec_dict : Dict) (cfg : String),
      plookup spec_dict "servers" = none →
      get_base_url spec_dict cfg = some (normalize_base cfg)) ∧
    (∀ (spec_dict : Dict) (cfg : String),
      plookup spec_dict "servers" = some (.arr []) →
      get_base_url spec_dict cfg = some (normalize_base cfg)) ∧
    (∀ (spec_dict : Dict) (cfg : String) (kvs : List (String × Json))
      (rest : List Json),
      plookup spec_dict "servers" = some (.arr (.obj kvs :: rest)) →
      plookup kvs "url" = none →
      get_base_url spec_dict cfg = some (normalize_base cfg)) ∧
    (∀ s : String, pyStartsWith s "http://" = false →
      pyStartsWith s "https://" = false →
      normalize_base s =
        "https://" ++ (if pyEndsWith s "/" then pyDropLast s else s)) ∧
    (∀ s : String,
      (pyStartsWith s "http://" = true ∨ pyStartsWith s "https://" = true) →
      pyEndsWith s "/" = false → normalize_base s = s) := by
  refine ⟨?_, ?_, ?_, ?_, ?_, ?_⟩
  · intro spec_dict cfg u kvs rest h1 h2
    simp [get_base_url, raw_base_url, h1, h2, truthy]
  · intro spec_dict cfg h1
    simp [get_base_url, raw_base_url, h1]
  · intro spec_dict cfg h1
    simp [get_base_url, raw_base_url, h1, truthy]
  · intro spec_dict cfg kvs rest h1 h2
    simp [get_base_url, raw_base_url, h1, h2, truthy]
  · intro s h1 h2
    simp only [normalize_base]
    rw [startsWith_strip_false s _ h1, startsWith_strip_false s _ h2]
    simp
  · intro s hs he
    rcases hs with h | h <;> simp [normalize_base, he, h]

/-- Witness for C4 (amended) at concrete documents and base URLs. -/
theorem resolve_base_url_normalization_witness :
    get_base_url [("servers", .arr [.obj [("url", .str "api.example.com")]])]
      "cfg" = some (normalize_base "api.example.com") ∧
    normalize_base "api.example.com" =
      "https://" ++ (if pyEndsWith "api.example.com" "/" then
        pyDropLast "api.example.com" else "api.example.com") ∧
    normalize_base "http://localhost:7272" = "http://localhost:7272" :=
  ⟨resolve_base_url_normalization.1 _ "cfg" "api.example.com" _ [] rfl rfl,
    resolve_base_url_normalization.2.2.2.2.1 "api.example.com"
      (by decide) (by decide),
    resolve_base_url_normalization.2.2.2.2.2 "http://localhost:7272"
      (Or.inl (by decide)) (by decide)⟩

/-- C5 counterexample: a response with status 300 (not 2xx) and a decodable
body makes the fetch succeed — `raise_for_status` only raises for 4xx/5xx —
so "raises iff ... non-2xx status ..." is false as stated. -/
theorem fetch_spec_claim_refuted :
    fetch_openapi_spec (.response 300 (.ok (.obj []))) = .ok (.obj []) ∧
    ¬ claimed_fetch_error_iff_non2xx := by
  refine ⟨rfl, ?_⟩
  intro h
  obtain ⟨msg, hmsg⟩ := (h 300 (.ok (.obj []))).2 (Or.inl (by omega))
  rw [show fetch_openapi_spec (.response 300 (.ok (.obj []))) =
    .ok (.obj []) from rfl] at hmsg
  exact Except.noConfusion hmsg

/-- C5 (amended): the construction-time fetch raises a `ValueError`
carrying the underlying cause exactly when the GET errors, returns a
4xx/5xx status, or yields an undecodable body; that error propagates
through `__init__` so no client exists; when the fetch succeeds any further
construction failure is an `AttributeError` (not a spec-fetch error); and
the other catalog operations — indexing and base-URL resolution — never
raise on well-formed documents. -/
theorem fetch_spec_error_contract :
    (∀ outcome, (∃ msg, fetch_openapi_spec outcome = .error (.valueError msg))
      ↔ spec_fetch_fails outcome = true) ∧
    (∀ e, fetch_openapi_spec (.transportError e) =
      .error (.valueError ("Failed to fetch OpenAPI spec: " ++ e))) ∧
    (∀ (config : APIClientConfig) (outcome : FetchOutcome) (err : PyErr),
      fetch_openapi_spec outcome = .error err →
      mkClient config outcome = .error err) ∧
    (∀ (config : APIClientConfig) (outcome : FetchOutcome) (spec : Json),
      fetch_openapi_spec outcome = .ok spec →
      ∀ err, mkClient config outcome = .error err → err = .attributeError) ∧
    (∀ spec_dict : Dict, plookup spec_dict "paths" = none →
      parse_endpoints spec_dict = some []) ∧
    (∀ (spec_dict : Dict) (pkvs : List (String × Json)),
      plookup spec_dict "paths" = some (.obj pkvs) → wf_paths pkvs = true →
      (keys pkvs).Nodup → (parse_endpoints spec_dict).isSome = true) ∧
    (∀ (spec_dict : Dict) (cfg : String), wf_servers spec_dict = true →
      (get_base_url spec_dict cfg).isSome = true) := by
  refine ⟨?_, ?_, ?_, ?_, ?_, ?_, ?_⟩
  · intro outcome
    cases outcome with
    | transportError e => simp [fetch_openapi_spec, spec_fetch_fails]
    | response status body =>
        by_cases hr : (400 ≤ status && status < 600) = true
        · simp [fetch_openapi_spec, spec_fetch_fails, hr]
        · cases body with
          | error e => simp [fetch_openapi_spec, spec_fetch_fails, hr]
          | ok spec => simp [fetch_openapi_spec, spec_fetch_fails, hr]
  · intro e
    rfl
  · intro config outcome err h
    simp [mkClient, h]
  · intro config outcome spec hok err herr
    rw [mkClient, hok] at herr
    cases hpt : parse_endpoints_top spec with
    | some eps =>
        simp only [hpt] at herr
        exact Except.noConfusion herr
    | none =>
        simp only [hpt] at herr
        exact (Except.error.inj herr).symm
  · intro spec_dict h
    rw [parse_endpoints, h]
  · intro spec_dict pkvs hp hwf hnd
    obtain ⟨eps, heps, _, _, _⟩ :=
      parse_endpoints_aux_spec pkvs [] hwf hnd (by simp [keys])
    rw [parse_endpoints, hp]
    show (parse_endpoints_aux [] pkvs).isSome = true
    rw [heps]
    rfl
  · intro spec_dict cfg hws
    unfold wf_servers at hws
    unfold get_base_url raw_base_url
    cases hsv : plookup spec_dict "servers" with
    | none => rfl
    | some sv =>
        rw [hsv] at hws
        cases sv with
        | arr elems =>
            cases elems with
            | nil => rfl
            | cons first rest =>
                cases first with
                | obj kvs =>
                    cases hu : plookup kvs "url" with
                    | none => simp [truthy, hu]
                    | some u =>
                        cases u with
                        | str s => simp [truthy, hu]
                        | null => simp [hu] at hws
                        | bool b => simp [hu] at hws
                        | num n => simp [hu] at hws
                        | arr a => simp [hu] at hws
                        | obj o => simp [hu] at hws
                | null => exact Bool.noConfusion hws
                | bool b => exact Bool.noConfusion hws
                | num n => exact Bool.noConfusion hws
                | str s => exact Bool.noConfusion hws
                | arr a => exact Bool.noConfusion hws
        | null => exact Bool.noConfusion hws
        | bool b => exact Bool.noConfusion hws
        | num n => exact Bool.noConfusion hws
        | str s => exact Bool.noConfusion hws
        | obj o => exact Bool.noConfusion hws

/-- Witness for C5 (amended) at a concrete transport failure and document. -/
theorem fetch_spec_error_contract_witness :
    ((∃ msg, fetch_openapi_spec (.transportError "boom") =
        .error (.valueError msg)) ↔
      spec_fetch_fails (.transportError "boom") = true) ∧
    mkClient {} (.transportError "boom") =
      .error (.valueError ("Failed to fetch OpenAPI spec: " ++ "boom")) ∧
    (get_base_url spec0 "localhost:7272").isSome = true :=
  ⟨fetch_spec_error_contract.1 _,
    fetch_spec_error_contract.2.2.1 {} _ _
      (fetch_spec_error_contract.2.1 "boom"),
    fetch_spec_error_contract.2.2.2.2.2.2 spec0 "localhost:7272" rfl⟩

theorem get_transport_error (config : APIClientConfig) (spec_dict : Dict)
    (decode : String → Option Json) (path : String) (params : Option Json)
    (e base : String)
    (h : get_base_url spec_dict config.api_base_url = some base) :
    get config spec_dict decode path params (.error e) =
      some ⟨500, false, none, some e, [],
        ⟨"GET", base ++ (if pyStartsWith path "/" then path else "/" ++ path),
          params, none⟩⟩ := by
  unfold get
  rw [h]
  rfl

theorem post_transport_error (config : APIClientConfig) (spec_dict : Dict)
    (decode : String → Option Json) (path : String) (data params : Option Json)
    (e base : String)
    (h : get_base_url spec_dict config.api_base_url = some base) :
    post config spec_dict decode path data params (.error e) =
      some ⟨500, false, none, some e, [],
        ⟨"POST", base ++ (if pyStartsWith path "/" then path else "/" ++ path),
          params, data⟩⟩ := by
  unfold post
  rw [h]
  rfl

theorem put_transport_error (config : APIClientConfig) (spec_dict : Dict)
    (decode : String → Option Json) (path : String) (data params : Option Json)
    (e base : String)
    (h : get_base_url spec_dict config.api_base_url = some base) :
    put config spec_dict decode path data params (.error e) =
      some ⟨500, false, none, some e, [],
        ⟨"PUT", base ++ (if pyStartsWith path "/" then path else "/" ++ path),
          params, data⟩⟩ := by
  unfold put
  rw [h]
  rfl

theorem delete_transport_error (config : APIClientConfig) (spec_dict : Dict)
    (decode : String → Option Json) (path : String) (params : Option Json)
    (e base : String)
    (h : get_base_url spec_dict config.api_base_url = some base) :
    delete config spec_dict decode path params (.error e) =
      some ⟨500, false, none, some e, [],
        ⟨"DELETE", base ++ (if pyStartsWith path "/" then path else "/" ++ path),
          params, none⟩⟩ := by
  unfold delete
  rw [h]
  rfl

theorem patch_transport_error (config : APIClientConfig) (spec_dict : Dict)
    (decode : String → Option Json) (path : String) (data params : Option Json)
    (e base : String)
    (h : get_base_url spec_dict config.api_base_url = some base) :
    patch config spec_dict decode path data params (.error e) =
      some ⟨500, false, none, some e, [],
        ⟨"PATCH", base ++ (if pyStartsWith path "/" then path else "/" ++ path),
          params, data⟩⟩ := by
  unfold patch
  rw [h]
  rfl

/-- C7 counterexample: the empty string is malformed JSON (decoding it
fails), yet `parse_json_arg` treats it like an absent argument — the verb
request is still issued and the process exits 0 — so the claim as stated
fails on the empty-string argument. -/
theorem cli_malformed_json_claim_refuted :
    ((fun _ : String => (none : Option Json)) "" = none) ∧
    ¬ claimed_malformed_json_exits := by
  refine ⟨rfl, ?_⟩
  intro h
  have := h {} [] (fun _ => none) "get" "/x" "" none (.error "connection refused")
    ⟨0, true, some ⟨500, false, none, some "connection refused", [],
      ⟨"GET", "http://localhost:7272/x", none, none⟩⟩⟩
    (Or.inl rfl) rfl rfl
  exact this.1 rfl

/-- C7 (amended): a non-empty malformed `--params` or `--data` JSON
argument makes the CLI exit with status 1 before the verb request is
attempted (the empty string is instead treated as an absent argument),
whereas a per-request transport failure is printed as part of the formatted
`APIResponse` and the process exits with status 0. -/
theorem cli_json_error_exit_contract
    (config : APIClientConfig) (spec_dict : Dict)
    (decode : String → Option Json) (method path : String)
    (outcome : Except String HttpResponse) :
    (∀ s dataArg,
      (method = "get" ∨ method = "post" ∨ method = "put" ∨
        method = "delete" ∨ method = "patch") →
      s ≠ "" → decode s = none →
      run_client_mode config spec_dict decode method path (some s) dataArg
        outcome = some ⟨1, false, none⟩) ∧
    (∀ paramsArg v s,
      (method = "get" ∨ method = "post" ∨ method = "put" ∨
        method = "delete" ∨ method = "patch") →
      parse_json_arg decode paramsArg = .ok v →
      s ≠ "" → decode s = none →
      run_client_mode config spec_dict decode method path paramsArg (some s)
        outcome = some ⟨1, false, none⟩) ∧
    (∀ paramsArg dataArg p d e base,
      (method = "get" ∨ method = "post" ∨ method = "put" ∨
        method = "delete" ∨ method = "patch") →
      parse_json_arg decode paramsArg = .ok p →
      parse_json_arg decode dataArg = .ok d →
      get_base_url spec_dict config.api_base_url = some base →
      outcome = .error e →
      ∃ r, run_client_mode config spec_dict decode method path paramsArg
          dataArg outcome = some ⟨0, true, some r⟩ ∧
        r.success = false ∧ r.error = some e) := by
  refine ⟨?_, ?_, ?_⟩
  · intro s dataArg hm hs hdec
    rcases hm with rfl | rfl | rfl | rfl | rfl <;>
      simp [run_client_mode, parse_json_arg, hs, hdec]
  · intro paramsArg v s hm hpv hs hdec
    have hde : parse_json_arg decode (some s) = .error () := by
      simp [parse_json_arg, hs, hdec]
    rcases hm with rfl | rfl | rfl | rfl | rfl <;>
      simp [run_client_mode, hpv, hde]
  · intro paramsArg dataArg p d e base hm hp hd hbase hout
    subst hout
    rcases hm with rfl | rfl | rfl | rfl | rfl
    · exact ⟨⟨500, false, none, some e, [], ⟨"GET",
        base ++ (if pyStartsWith path "/" then path else "/" ++ path),
        p, none⟩⟩,
        by simp [run_client_mode, hp, hd,
          get_transport_error config spec_dict decode path p e base hbase],
        rfl, rfl⟩
    · exact ⟨⟨500, false, none, some e, [], ⟨"POST",
        base ++ (if pyStartsWith path "/" then path else "/" ++ path),
        p, d⟩⟩,
        by simp [run_client_mode, hp, hd,
          post_transport_error config spec_dict decode path d p e base hbase],
        rfl, rfl⟩
    · exact ⟨⟨500, false, none, some e, [], ⟨"PUT",
        base ++ (if pyStartsWith path "/" then path else "/" ++ path),
        p, d⟩⟩,
        by simp [run_client_mode, hp, hd,
          put_transport_error config spec_dict decode path d p e base hbase],
        rfl, rfl⟩
    · exact ⟨⟨500, false, none, some e, [], ⟨"DELETE",
        base ++ (if pyStartsWith path "/" then path else "/" ++ path),
        p, none⟩⟩,
        by simp [run_client_mode, hp, hd,
          delete_transport_error config spec_dict decode path p e base hbase],
        rfl, rfl⟩
    · exact ⟨⟨500, false, none, some e, [], ⟨"PATCH",
        base ++ (if pyStartsWith path "/" then path else "/" ++ path),
        p, d⟩⟩,
        by simp [run_client_mode, hp, hd,
          patch_transport_error config spec_dict decode path d p e base hbase],
        rfl, rfl⟩

/-- Witness for C7 (amended) at a concrete malformed argument and a
concrete transport failure. -/
theorem cli_json_error_exit_contract_witness :
    (("nope" : String) ≠ "" ∧
      (fun _ : String => (none : Option Json)) "nope" = none) ∧
    run_client_mode {} [] (fun _ => none) "get" "/x" (some "nope") none
      (.error "boom") = some ⟨1, false, none⟩ ∧
    (∃ r, run_client_mode {} [] (fun _ => none) "get" "/x" none none
        (.error "boom") = some ⟨0, true, some r⟩ ∧
      r.success = false ∧ r.error = some "boom") :=
  ⟨⟨by decide, rfl⟩,
    (cli_json_error_exit_contract {} [] (fun _ => none) "get" "/x"
      (.error "boom")).1 "nope" none (Or.inl rfl) (by decide) rfl,
    (cli_json_error_exit_contract {} [] (fun _ => none) "get" "/x"
      (.error "boom")).2.2 none none none none "boom" "http://localhost:7272"
      (Or.inl rfl) rfl rfl rfl rfl⟩

end Apiki
